import Mathlib

/-
Verification of the DMA ring subsystem of the fpgalink PCIe driver
(src/driver/fpgalink.c) against its design document.

The driver code is embedded shallowly:
- the u32 counters of struct AlteraDevice become Nat values, with every
  arithmetic operation the C performs on a u32 followed by an explicit
  reduction modulo 2^32;
- the BAR0 register window becomes a total map from 32-bit word offsets to
  stored values, written through iowrite32 and read through ioread32;
- each DMA submission (a DMABASE/DMACTRL register pair write issued by
  submitDmaReq) is additionally recorded in an append-only log, so that
  theorems can speak about which slots were handed to the device and in
  which order;
- user-memory transfers (copy_from_user, copy_to_user, put_user) are
  modelled by oracles saying whether each transfer faults, and by logs of
  the values that reached userspace.
-/

set_option maxRecDepth 2000

namespace Fpgalink

/-- 2^32, the modulus of the u32 arithmetic used throughout the driver. -/
def U32 : Nat := 4294967296

/-- NUM_BUFS from fpgalink.c: the number of DMA buffers in the circular
queue.  A power of two, so the C masks with NUM_BUFS - 1 where this
development reduces modulo NUM_BUFS. -/
def NUM_BUFS : Nat := 32

/-- Modelled from the spec: BUF_SIZE is defined in ioctl_defs.h, which is
not part of src/.  The spec fixes it as a compile-time multiple of 128 and
its test scenarios use BUF_SIZE = 4096. -/
def BUF_SIZE : Nat := 4096

/-- u32 subtraction a - b as the C performs it: two-complement wraparound
modulo 2^32 (the second operand is first truncated to u32). -/
def usub (a b : Nat) : Nat := (a + (U32 - b % U32)) % U32

/-- The circular-buffer metadata of struct AlteraDevice: numAvailable,
numSubmitted, outIndex (all u32 in the C). -/
structure RingState where
  numAvailable : Nat
  numSubmitted : Nat
  outIndex : Nat
deriving DecidableEq

/-- One DMA request as handed to submitDmaReq: a bus address and a count
of 128-byte TLPs. -/
structure DmaReq where
  addr : Nat
  numTLPs : Nat
deriving DecidableEq

/-- The device-visible state the claims are about: the ring counters, the
BAR0 register window (word offset to stored u32 value), and the ordered
log of DMA submissions issued so far. -/
structure Dev where
  ring : RingState
  regs : Nat → Nat
  subLog : List DmaReq

/-- iowrite32 v at word offset off of BAR0: the register file is updated
at that offset with the value truncated to u32. -/
def wr (regs : Nat → Nat) (off v : Nat) : Nat → Nat :=
  fun x => if x = off then v % U32 else regs x

/-- submitDmaReq from fpgalink.c: iowrite32((u32)addr, DMABASE(regSpace));
iowrite32(numTLPs, DMACTRL(regSpace)).  DMABASE is word offset 0*2+1 = 1
and DMACTRL is word offset 1*2+1 = 3.  The request is also recorded in
the submission log. -/
def submitDmaReq (d : Dev) (addr numTLPs : Nat) : Dev :=
  { d with
    regs := wr (wr d.regs 1 addr) 3 numTLPs,
    subLog := d.subLog ++ [⟨addr, numTLPs⟩] }

/-- The return value of a Linux interrupt handler: IRQ_NONE (the
interrupt was not ours) or IRQ_HANDLED. -/
inductive IrqRet where
  | notOurs
  | handled
deriving DecidableEq

/-- The refill loop of serviceInterrupt:
while (submitCount--) { submitDmaReq(...); submitIndex++;
submitIndex &= NUM_BUFS-1; ape->numSubmitted++; }.
b is ape->bufferArrayBus and sizeof(struct Buffer) = BUF_SIZE. -/
def isrLoop (b : Nat) : Nat → Nat → Dev → Dev
  | 0, _, d => d
  | c + 1, idx, d =>
    let d1 := submitDmaReq d (b + idx * BUF_SIZE) (BUF_SIZE / 128)
    isrLoop b c ((idx + 1) % NUM_BUFS)
      { d1 with ring := { d1.ring with numSubmitted := (d1.ring.numSubmitted + 1) % U32 } }

/-- serviceInterrupt from fpgalink.c.  devOk models the devID null test
(if !ape return IRQ_NONE).  Otherwise, under the ring spinlock:
numAvailable++; numSubmitted--; submitCount = NUM_BUFS - numAvailable -
numSubmitted; submitIndex = (outIndex + numAvailable) & (NUM_BUFS-1);
then the refill loop; return IRQ_HANDLED.  All counter arithmetic is u32. -/
def serviceInterrupt (b : Nat) (devOk : Bool) (d : Dev) : IrqRet × Dev :=
  match devOk with
  | false => (IrqRet.notOurs, d)
  | true =>
    let nA := (d.ring.numAvailable + 1) % U32
    let nS := usub d.ring.numSubmitted 1
    let submitCount := usub (usub NUM_BUFS nA) nS
    let submitIndex := (d.ring.outIndex + nA) % NUM_BUFS
    let d1 : Dev :=
      { d with ring := { numAvailable := nA, numSubmitted := nS, outIndex := d.ring.outIndex } }
    (IrqRet.handled, isrLoop b submitCount submitIndex d1)

/-- The outcome of one cdevRead call: the returned value (BUF_SIZE or a
negative errno), the copy_to_user transfers attempted (source slot index
and byte count), and the device state afterwards. -/
structure ReadOut where
  ret : Int
  copied : List (Nat × Nat)
  dev : Dev

/-- cdevRead from fpgalink.c.  count < BUF_SIZE returns -EINVAL (-22).
Otherwise the code calls wait_event_interruptible and DISCARDS its result
(signalled records whether that wait was ended by a signal; the body does
not consult it), then calls copy_to_user and DISCARDS its result as well
(copyOk records whether the copy succeeded; the rc variable is only ever
cast to void).  It then submits the slot at outIndex, increments
numSubmitted, advances outIndex with the NUM_BUFS-1 mask, decrements
numAvailable, and returns BUF_SIZE. -/
def cdevRead (b count : Nat) (signalled copyOk : Bool) (d : Dev) : ReadOut :=
  if count < BUF_SIZE then
    ⟨-22, [], d⟩
  else
    let slot := d.ring.outIndex
    let d1 := submitDmaReq d (b + slot * BUF_SIZE) (BUF_SIZE / 128)
    ⟨(BUF_SIZE : Int), [(slot, BUF_SIZE)],
      { d1 with ring :=
        { numAvailable := usub d1.ring.numAvailable 1,
          numSubmitted := (d1.ring.numSubmitted + 1) % U32,
          outIndex := (d1.ring.outIndex + 1) % NUM_BUFS } }⟩

/-- One entry of the userspace command array of the CMDLIST ioctl:
struct Cmd { u32 op, reg, val; }. -/
structure Cmd where
  op : Nat
  reg : Nat
  val : Nat
deriving DecidableEq

/-- Modelled from the spec: the op-code tags OP_RD, OP_WR, OP_SD are
defined in ioctl_defs.h, which is not part of src/.  The spec fixes only
that they are three distinct u32 tags for READ, WRITE and START. -/
def OP_RD : Nat := 0

/-- Modelled from the spec: the WRITE op-code tag (see OP_RD). -/
def OP_WR : Nat := 1

/-- Modelled from the spec: the START op-code tag (see OP_RD). -/
def OP_SD : Nat := 2

/-- The outcome of the CMDLIST command loop: the ioctl return value (0 or
a negative errno), the (command index, value) pairs written back to the
caller array by put_user, and the device state afterwards. -/
structure IoctlOut where
  ret : Int
  userVal : List (Nat × Nat)
  dev : Dev

/-- The command loop of cdevIOCtl (case FPGALINK_CMDLIST) from
fpgalink.c.  fetch i is the copy_from_user of the i-th struct Cmd (none
models a fault, which returns -EFAULT = -14); putOk i tells whether the
put_user write-back for command i succeeds.  For each command:
reg = 1 + kc.reg * 2 (u32); OP_RD reads BAR0 word reg and writes it back
to the caller's val field (fault returns -EFAULT); OP_WR writes kc.val to
BAR0 word reg; OP_SD sets numAvailable = outIndex = 0, numSubmitted = 1
and submits slot 0 (bus base address, BUF_SIZE/128 TLPs); any other
op-code returns -EFAULT.  Exhausting the count returns 0. -/
def execCmds (b : Nat) (fetch : Nat → Option Cmd) (putOk : Nat → Bool) :
    Nat → Nat → List (Nat × Nat) → Dev → IoctlOut
  | 0, _, acc, d => ⟨0, acc, d⟩
  | n + 1, i, acc, d =>
    match fetch i with
    | none => ⟨-14, acc, d⟩
    | some kc =>
      let reg := (1 + kc.reg * 2) % U32
      if kc.op = OP_RD then
        if putOk i then
          execCmds b fetch putOk n (i + 1) (acc ++ [(i, d.regs reg)]) d
        else
          ⟨-14, acc, d⟩
      else if kc.op = OP_WR then
        execCmds b fetch putOk n (i + 1) acc { d with regs := wr d.regs reg kc.val }
      else if kc.op = OP_SD then
        execCmds b fetch putOk n (i + 1) acc
          (submitDmaReq { d with ring := ⟨0, 1, 0⟩ } b (BUF_SIZE / 128))
      else
        ⟨-14, acc, d⟩

/-- The FPGALINK_CMDLIST ioctl once the CmdList header has been fetched:
run the command loop over numCmds commands starting at index 0. -/
def cdevIOCtl (b : Nat) (fetch : Nat → Option Cmd) (putOk : Nat → Bool)
    (numCmds : Nat) (d : Dev) : IoctlOut :=
  execCmds b fetch putOk numCmds 0 [] d

/-! ### Arithmetic helper lemmas -/

/-- When no wraparound occurs (b at most a, a below 2^32), the u32
subtraction agrees with truncated Nat subtraction. -/
theorem usub_eq_sub (a b : Nat) (hb : b ≤ a) (ha : a < U32) : usub a b = a - b := by
  have hbU : b < U32 := lt_of_le_of_lt hb ha
  unfold usub
  rw [Nat.mod_eq_of_lt hbU]
  have h1 : a + (U32 - b) = (a - b) + U32 := by omega
  rw [h1, Nat.add_mod_right]
  exact Nat.mod_eq_of_lt (by omega)

/-! ### The interrupt-handler refill loop -/

/-- Field-by-field description of the refill loop: it leaves numAvailable
and outIndex alone, adds the iteration count to numSubmitted (mod 2^32),
and appends one submission per iteration, walking the ring upward from
idx modulo NUM_BUFS with TLP count BUF_SIZE/128. -/
theorem isrLoop_fields (b : Nat) :
    ∀ (c idx : Nat) (d : Dev), idx < NUM_BUFS → d.ring.numSubmitted < U32 →
      (isrLoop b c idx d).ring.numAvailable = d.ring.numAvailable ∧
      (isrLoop b c idx d).ring.outIndex = d.ring.outIndex ∧
      (isrLoop b c idx d).ring.numSubmitted = (d.ring.numSubmitted + c) % U32 ∧
      (isrLoop b c idx d).subLog =
        d.subLog ++ (List.range c).map
          (fun k => ⟨b + ((idx + k) % NUM_BUFS) * BUF_SIZE, BUF_SIZE / 128⟩) := by
  intro c
  induction c with
  | zero =>
    intro idx d hidx hS
    refine ⟨rfl, rfl, ?_, ?_⟩
    · show d.ring.numSubmitted = (d.ring.numSubmitted + 0) % U32
      rw [Nat.add_zero, Nat.mod_eq_of_lt hS]
    · simp [isrLoop]
  | succ c ih =>
    intro idx d hidx hS
    have hstep : isrLoop b (c + 1) idx d =
        isrLoop b c ((idx + 1) % NUM_BUFS)
          { ring := { numAvailable := d.ring.numAvailable,
                      numSubmitted := (d.ring.numSubmitted + 1) % U32,
                      outIndex := d.ring.outIndex },
            regs := wr (wr d.regs 1 (b + idx * BUF_SIZE)) 3 (BUF_SIZE / 128),
            subLog := d.subLog ++ [⟨b + idx * BUF_SIZE, BUF_SIZE / 128⟩] } := by
      simp only [isrLoop, submitDmaReq]
    have hidx1 : (idx + 1) % NUM_BUFS < NUM_BUFS := Nat.mod_lt _ (by decide)
    have hS1 : (d.ring.numSubmitted + 1) % U32 < U32 := Nat.mod_lt _ (by decide)
    obtain ⟨e1, e2, e3, e4⟩ := ih ((idx + 1) % NUM_BUFS)
      { ring := { numAvailable := d.ring.numAvailable,
                  numSubmitted := (d.ring.numSubmitted + 1) % U32,
                  outIndex := d.ring.outIndex },
        regs := wr (wr d.regs 1 (b + idx * BUF_SIZE)) 3 (BUF_SIZE / 128),
        subLog := d.subLog ++ [⟨b + idx * BUF_SIZE, BUF_SIZE / 128⟩] } hidx1 hS1
    rw [hstep]
    refine ⟨e1, e2, ?_, ?_⟩
    · rw [e3]
      show ((d.ring.numSubmitted + 1) % U32 + c) % U32 = (d.ring.numSubmitted + (c + 1)) % U32
      rw [Nat.mod_add_mod]
      have harr : d.ring.numSubmitted + 1 + c = d.ring.numSubmitted + (c + 1) := by omega
      rw [harr]
    · rw [e4]
      show (d.subLog ++ [⟨b + idx * BUF_SIZE, BUF_SIZE / 128⟩]) ++
          (List.range c).map
            (fun k => (⟨b + (((idx + 1) % NUM_BUFS + k) % NUM_BUFS) * BUF_SIZE,
              BUF_SIZE / 128⟩ : DmaReq)) =
        d.subLog ++ (List.range (c + 1)).map
          (fun k => ⟨b + ((idx + k) % NUM_BUFS) * BUF_SIZE, BUF_SIZE / 128⟩)
      have hfun : (fun k => (⟨b + (((idx + 1) % NUM_BUFS + k) % NUM_BUFS) * BUF_SIZE,
            BUF_SIZE / 128⟩ : DmaReq)) =
          fun k => ⟨b + ((idx + 1 + k) % NUM_BUFS) * BUF_SIZE, BUF_SIZE / 128⟩ := by
        funext k
        rw [Nat.mod_add_mod]
      rw [hfun, List.range_succ_eq_map, List.map_cons, List.map_map]
      have hzero : (⟨b + ((idx + 0) % NUM_BUFS) * BUF_SIZE, BUF_SIZE / 128⟩ : DmaReq) =
          ⟨b + idx * BUF_SIZE, BUF_SIZE / 128⟩ := by
        rw [Nat.add_zero, Nat.mod_eq_of_lt hidx]
      have hcomp : ((fun k => (⟨b + ((idx + k) % NUM_BUFS) * BUF_SIZE,
            BUF_SIZE / 128⟩ : DmaReq)) ∘ Nat.succ) =
          fun k => ⟨b + ((idx + 1 + k) % NUM_BUFS) * BUF_SIZE, BUF_SIZE / 128⟩ := by
        funext k
        show (⟨b + ((idx + (k + 1)) % NUM_BUFS) * BUF_SIZE, BUF_SIZE / 128⟩ : DmaReq) =
          ⟨b + ((idx + 1 + k) % NUM_BUFS) * BUF_SIZE, BUF_SIZE / 128⟩
        have harr : idx + (k + 1) = idx + 1 + k := by omega
        rw [harr]
      rw [hzero, hcomp]
      simp [List.append_assoc, List.singleton_append]

/-! ### C1: the interrupt handler saturates the device -/

/-- C1: for every ring state with numSubmitted at least 1 and
numAvailable + numSubmitted at most NUM_BUFS on entry, one execution of
the interrupt handler with a non-null device pointer returns IRQ_HANDLED,
increments numAvailable by one, leaves numSubmitted + numAvailable equal
to NUM_BUFS on exit, and submits every Free slot, in ring order starting
just past the Available region. -/
theorem serviceInterrupt_saturates (b : Nat) (d : Dev)
    (h1 : 1 ≤ d.ring.numSubmitted)
    (h2 : d.ring.numAvailable + d.ring.numSubmitted ≤ NUM_BUFS) :
    (serviceInterrupt b true d).1 = IrqRet.handled ∧
    (serviceInterrupt b true d).2.ring.numAvailable = d.ring.numAvailable + 1 ∧
    (serviceInterrupt b true d).2.ring.numSubmitted +
      (serviceInterrupt b true d).2.ring.numAvailable = NUM_BUFS ∧
    (serviceInterrupt b true d).2.subLog =
      d.subLog ++
        (List.range (NUM_BUFS - d.ring.numAvailable - d.ring.numSubmitted)).map
          (fun k => ⟨b + ((d.ring.outIndex + d.ring.numAvailable + 1 + k) % NUM_BUFS) * BUF_SIZE,
            BUF_SIZE / 128⟩) := by
  have hnA : d.ring.numAvailable + 1 < U32 := by
    unfold NUM_BUFS at h2
    unfold U32
    omega
  have e_nA : (d.ring.numAvailable + 1) % U32 = d.ring.numAvailable + 1 := Nat.mod_eq_of_lt hnA
  have hnS : d.ring.numSubmitted < U32 := by
    unfold NUM_BUFS at h2
    unfold U32
    omega
  have e_nS : usub d.ring.numSubmitted 1 = d.ring.numSubmitted - 1 := usub_eq_sub _ _ h1 hnS
  have e_c1 : usub NUM_BUFS (d.ring.numAvailable + 1) = NUM_BUFS - (d.ring.numAvailable + 1) :=
    usub_eq_sub _ _ (by unfold NUM_BUFS at *; omega) (by unfold NUM_BUFS U32; omega)
  have e_c2 : usub (NUM_BUFS - (d.ring.numAvailable + 1)) (d.ring.numSubmitted - 1) =
      NUM_BUFS - d.ring.numAvailable - d.ring.numSubmitted := by
    rw [usub_eq_sub _ _ (by unfold NUM_BUFS at *; omega) (by unfold NUM_BUFS U32; omega)]
    unfold NUM_BUFS at *
    omega
  have hsi : serviceInterrupt b true d =
      (IrqRet.handled,
        isrLoop b (NUM_BUFS - d.ring.numAvailable - d.ring.numSubmitted)
          ((d.ring.outIndex + (d.ring.numAvailable + 1)) % NUM_BUFS)
          { ring := { numAvailable := d.ring.numAvailable + 1,
                      numSubmitted := d.ring.numSubmitted - 1,
                      outIndex := d.ring.outIndex },
            regs := d.regs, subLog := d.subLog }) := by
    simp only [serviceInterrupt, e_nA, e_nS, e_c1, e_c2]
  have hsi1 : (serviceInterrupt b true d).1 = IrqRet.handled := by
    rw [hsi]
  have hsi2 : (serviceInterrupt b true d).2 =
      isrLoop b (NUM_BUFS - d.ring.numAvailable - d.ring.numSubmitted)
        ((d.ring.outIndex + (d.ring.numAvailable + 1)) % NUM_BUFS)
        { ring := { numAvailable := d.ring.numAvailable + 1,
                    numSubmitted := d.ring.numSubmitted - 1,
                    outIndex := d.ring.outIndex },
          regs := d.regs, subLog := d.subLog } := by
    rw [hsi]
  obtain ⟨e1, e2, e3, e4⟩ := isrLoop_fields b
    (NUM_BUFS - d.ring.numAvailable - d.ring.numSubmitted)
    ((d.ring.outIndex + (d.ring.numAvailable + 1)) % NUM_BUFS)
    { ring := { numAvailable := d.ring.numAvailable + 1,
                numSubmitted := d.ring.numSubmitted - 1,
                outIndex := d.ring.outIndex },
      regs := d.regs, subLog := d.subLog }
    (Nat.mod_lt _ (by decide))
    (by show d.ring.numSubmitted - 1 < U32; unfold U32 at *; omega)
  refine ⟨hsi1, ?_, ?_, ?_⟩
  · rw [hsi2, e1]
  · rw [hsi2, e3, e1]
    show (d.ring.numSubmitted - 1 +
        (NUM_BUFS - d.ring.numAvailable - d.ring.numSubmitted)) % U32 +
      (d.ring.numAvailable + 1) = NUM_BUFS
    have hlt : d.ring.numSubmitted - 1 +
        (NUM_BUFS - d.ring.numAvailable - d.ring.numSubmitted) < U32 := by
      unfold NUM_BUFS at *
      unfold U32
      omega
    rw [Nat.mod_eq_of_lt hlt]
    unfold NUM_BUFS at *
    omega
  · rw [hsi2, e4]
    have hfun : (fun k =>
        (⟨b + (((d.ring.outIndex + (d.ring.numAvailable + 1)) % NUM_BUFS + k) % NUM_BUFS) *
          BUF_SIZE, BUF_SIZE / 128⟩ : DmaReq)) =
        fun k => ⟨b + ((d.ring.outIndex + d.ring.numAvailable + 1 + k) % NUM_BUFS) * BUF_SIZE,
          BUF_SIZE / 128⟩ := by
      funext k
      rw [Nat.mod_add_mod]
      have harr : d.ring.outIndex + (d.ring.numAvailable + 1) + k =
          d.ring.outIndex + d.ring.numAvailable + 1 + k := by omega
      rw [harr]
    rw [hfun]

/-- Concrete device state for the C1 witness: the state right after START
(one submission in flight, nothing available, outIndex 0). -/
def devW1 : Dev := ⟨⟨0, 1, 0⟩, fun _ => 0, []⟩

/-- Witness for C1: the saturation theorem applied at the post-START state. -/
theorem serviceInterrupt_saturates_witness :
    1 ≤ devW1.ring.numSubmitted ∧
    devW1.ring.numAvailable + devW1.ring.numSubmitted ≤ NUM_BUFS ∧
    ((serviceInterrupt 0 true devW1).1 = IrqRet.handled ∧
     (serviceInterrupt 0 true devW1).2.ring.numAvailable = devW1.ring.numAvailable + 1 ∧
     (serviceInterrupt 0 true devW1).2.ring.numSubmitted +
       (serviceInterrupt 0 true devW1).2.ring.numAvailable = NUM_BUFS ∧
     (serviceInterrupt 0 true devW1).2.subLog =
       devW1.subLog ++
         (List.range (NUM_BUFS - devW1.ring.numAvailable - devW1.ring.numSubmitted)).map
           (fun k =>
             ⟨0 + ((devW1.ring.outIndex + devW1.ring.numAvailable + 1 + k) % NUM_BUFS) * BUF_SIZE,
               BUF_SIZE / 128⟩)) :=
  ⟨by decide, by decide, serviceInterrupt_saturates 0 devW1 (by decide) (by decide)⟩

/-! ### C2: spurious interrupt with numSubmitted = 0 -/

/-- Concrete device state for C2: an idle ring (numAvailable = 0,
numSubmitted = 0, outIndex = 0), as after open but before START. -/
def devC2 : Dev := ⟨⟨0, 0, 0⟩, fun _ => 0, []⟩

/-- C2: the code has no guard for numSubmitted = 0 on entry.  On a
spurious interrupt with an idle ring it does NOT return IRQ_NONE and does
NOT leave the ring unchanged: the u32 decrement of numSubmitted wraps to
2^32 - 1, the refill count becomes 32, the handler issues 32 DMA
submissions, and the ring is left with numAvailable = 1 and
numSubmitted = 31, returning IRQ_HANDLED. -/
theorem serviceInterrupt_spurious_mutates :
    (serviceInterrupt 0 true devC2).1 = IrqRet.handled ∧
    (serviceInterrupt 0 true devC2).2.ring.numAvailable = 1 ∧
    (serviceInterrupt 0 true devC2).2.ring.numSubmitted = 31 ∧
    (serviceInterrupt 0 true devC2).2.subLog.length = 32 := by
  decide

/-! ### C3 and C4: the read path ignores the wait and copy results -/

/-- Concrete device state for C3: open but idle ring, nothing available;
the state in which a blocking read can only be ended by a signal. -/
def devC3 : Dev := ⟨⟨0, 0, 0⟩, fun _ => 0, []⟩

/-- C3: the code discards the result of wait_event_interruptible.  When
the wait is ended by a signal with numAvailable still 0, cdevRead does
NOT return an interrupted-system-call error and does NOT leave the ring
unchanged: it copies a frame anyway, submits a DMA request, advances
outIndex, and the u32 decrement of numAvailable wraps to 2^32 - 1; the
call returns BUF_SIZE. -/
theorem cdevRead_signal_ignored :
    (cdevRead 0 BUF_SIZE true true devC3).ret = (4096 : Int) ∧
    (cdevRead 0 BUF_SIZE true true devC3).copied = [(0, BUF_SIZE)] ∧
    (cdevRead 0 BUF_SIZE true true devC3).dev.subLog.length = 1 ∧
    (cdevRead 0 BUF_SIZE true true devC3).dev.ring.outIndex = 1 ∧
    (cdevRead 0 BUF_SIZE true true devC3).dev.ring.numAvailable = 4294967295 := by
  decide

/-- Concrete device state for C4: one frame available at slot 0 and the
rest submitted. -/
def devC4 : Dev := ⟨⟨1, 31, 0⟩, fun _ => 0, []⟩

/-- C4: the code assigns the copy_to_user result to rc but only ever
casts rc to void (after the return statement, at that).  When the copy
faults, cdevRead does NOT return a bad-address error and does NOT leave
the slot unconsumed: it still submits the slot, increments numSubmitted,
advances outIndex, decrements numAvailable, and returns BUF_SIZE. -/
theorem cdevRead_copy_fault_ignored :
    (cdevRead 0 BUF_SIZE false false devC4).ret = (4096 : Int) ∧
    (cdevRead 0 BUF_SIZE false false devC4).dev.ring.outIndex = 1 ∧
    (cdevRead 0 BUF_SIZE false false devC4).dev.ring.numAvailable = 0 ∧
    (cdevRead 0 BUF_SIZE false false devC4).dev.ring.numSubmitted = 32 ∧
    (cdevRead 0 BUF_SIZE false false devC4).dev.subLog = [⟨0, BUF_SIZE / 128⟩] := by
  decide

/-! ### C5: the successful read path -/

/-- C5: for every read call with a large enough buffer, a frame available
(numAvailable at least 1, the wait not signalled) and a successful copy,
cdevRead copies exactly BUF_SIZE bytes from slot outIndex, re-submits
that same slot, increments numSubmitted by one, advances outIndex by one
modulo NUM_BUFS, decrements numAvailable by one, and returns BUF_SIZE.
The bound numAvailable + numSubmitted at most NUM_BUFS is ring
invariant 1 of the spec and keeps the u32 arithmetic exact. -/
theorem cdevRead_success (b count : Nat) (d : Dev)
    (hc : BUF_SIZE ≤ count)
    (h1 : 1 ≤ d.ring.numAvailable)
    (h2 : d.ring.numAvailable + d.ring.numSubmitted ≤ NUM_BUFS) :
    (cdevRead b count false true d).ret = (BUF_SIZE : Int) ∧
    (cdevRead b count false true d).copied = [(d.ring.outIndex, BUF_SIZE)] ∧
    (cdevRead b count false true d).dev.subLog =
      d.subLog ++ [⟨b + d.ring.outIndex * BUF_SIZE, BUF_SIZE / 128⟩] ∧
    (cdevRead b count false true d).dev.ring.numSubmitted = d.ring.numSubmitted + 1 ∧
    (cdevRead b count false true d).dev.ring.outIndex = (d.ring.outIndex + 1) % NUM_BUFS ∧
    (cdevRead b count false true d).dev.ring.numAvailable = d.ring.numAvailable - 1 := by
  have hnc : ¬ count < BUF_SIZE := Nat.not_lt.mpr hc
  have hnAU : d.ring.numAvailable < U32 := by
    unfold NUM_BUFS at h2
    unfold U32
    omega
  have e_nA : usub d.ring.numAvailable 1 = d.ring.numAvailable - 1 :=
    usub_eq_sub _ _ h1 hnAU
  have e_nS : (d.ring.numSubmitted + 1) % U32 = d.ring.numSubmitted + 1 :=
    Nat.mod_eq_of_lt (by unfold NUM_BUFS at h2; unfold U32; omega)
  simp only [cdevRead, hnc, if_false, submitDmaReq, e_nA, e_nS]
  exact ⟨trivial, trivial, trivial, trivial, trivial, trivial⟩

/-- Concrete device state for the C5 witness: one frame available at
slot 0, all other slots submitted (the S2 steady state). -/
def devW5 : Dev := ⟨⟨1, 31, 0⟩, fun _ => 0, []⟩

/-- Witness for C5: the successful-read theorem applied at the steady
state with count = BUF_SIZE. -/
theorem cdevRead_success_witness :
    BUF_SIZE ≤ 4096 ∧
    1 ≤ devW5.ring.numAvailable ∧
    devW5.ring.numAvailable + devW5.ring.numSubmitted ≤ NUM_BUFS ∧
    ((cdevRead 7 4096 false true devW5).ret = (BUF_SIZE : Int) ∧
     (cdevRead 7 4096 false true devW5).copied = [(devW5.ring.outIndex, BUF_SIZE)] ∧
     (cdevRead 7 4096 false true devW5).dev.subLog =
       devW5.subLog ++ [⟨7 + devW5.ring.outIndex * BUF_SIZE, BUF_SIZE / 128⟩] ∧
     (cdevRead 7 4096 false true devW5).dev.ring.numSubmitted = devW5.ring.numSubmitted + 1 ∧
     (cdevRead 7 4096 false true devW5).dev.ring.outIndex = (devW5.ring.outIndex + 1) % NUM_BUFS ∧
     (cdevRead 7 4096 false true devW5).dev.ring.numAvailable = devW5.ring.numAvailable - 1) :=
  ⟨by decide, by decide, by decide,
    cdevRead_success 7 4096 devW5 (by decide) (by decide) (by decide)⟩

/-! ### C6: read with a short buffer -/

/-- C6: for every read call with count < BUF_SIZE, cdevRead returns
-EINVAL (-22), copies nothing to userspace, and leaves the device state
(ring counters, registers and submission log) exactly as it was. -/
theorem cdevRead_short_buffer (b count : Nat) (sig cp : Bool) (d : Dev)
    (hc : count < BUF_SIZE) :
    cdevRead b count sig cp d = ⟨-22, [], d⟩ := by
  simp only [cdevRead, hc, if_true]

/-- Concrete device state for the C6 witness. -/
def devW6 : Dev := ⟨⟨3, 29, 5⟩, fun _ => 0, []⟩

/-- Witness for C6: the short-buffer theorem applied at
count = BUF_SIZE - 1 = 4095 (spec scenario 8). -/
theorem cdevRead_short_buffer_witness :
    4095 < BUF_SIZE ∧ cdevRead 0 4095 false true devW6 = ⟨-22, [], devW6⟩ :=
  ⟨by decide, cdevRead_short_buffer 0 4095 false true devW6 (by decide)⟩

/-! ### Control-path helper lemmas -/

/-- Reading back the register offset just written returns the stored
(u32-truncated) value. -/
theorem wr_same (regs : Nat → Nat) (off v : Nat) : wr regs off v off = v % U32 := by
  unfold wr
  rw [if_pos rfl]

/-- When the command loop reaches a command whose op-code is none of
OP_RD, OP_WR, OP_SD, it stops at once with -EFAULT, returning the
write-back list and device state it had accumulated so far. -/
theorem execCmds_stops_at_bad_op (b : Nat) (fetch : Nat → Option Cmd) (putOk : Nat → Bool)
    (n i : Nat) (acc : List (Nat × Nat)) (d : Dev) (c : Cmd)
    (hf : fetch i = some c) (hrd : c.op ≠ OP_RD) (hwr : c.op ≠ OP_WR) (hsd : c.op ≠ OP_SD) :
    execCmds b fetch putOk (n + 1) i acc d = ⟨-14, acc, d⟩ := by
  simp only [execCmds, hf]
  rw [if_neg hrd, if_neg hwr, if_neg hsd]

/-! ### C7: the START command -/

/-- C7: for every device state, a batch consisting of one START command
returns 0, sets numAvailable = 0 and outIndex = 0, sets numSubmitted = 1,
and submits slot 0: the bus base address of the pool with TLP count
BUF_SIZE / 128. -/
theorem cdevIOCtl_start (b : Nat) (fetch : Nat → Option Cmd) (putOk : Nat → Bool) (d : Dev)
    (r v : Nat) (hf : fetch 0 = some ⟨OP_SD, r, v⟩) :
    (cdevIOCtl b fetch putOk 1 d).ret = 0 ∧
    (cdevIOCtl b fetch putOk 1 d).dev.ring.numAvailable = 0 ∧
    (cdevIOCtl b fetch putOk 1 d).dev.ring.outIndex = 0 ∧
    (cdevIOCtl b fetch putOk 1 d).dev.ring.numSubmitted = 1 ∧
    (cdevIOCtl b fetch putOk 1 d).dev.subLog = d.subLog ++ [⟨b, BUF_SIZE / 128⟩] := by
  refine ⟨?_, ?_, ?_, ?_, ?_⟩ <;>
  · simp only [cdevIOCtl, execCmds]
    rw [hf]
    rfl

/-- Concrete command array for the C7 witness: one START command. -/
def fetchW7 : Nat → Option Cmd := fun _ => some ⟨OP_SD, 3, 4⟩

/-- put_user oracle that never faults, shared by several witnesses. -/
def putAll : Nat → Bool := fun _ => true

/-- Concrete device state for the C7 witness: a ring mid-stream, to show
START re-zeroes it (spec scenario 10). -/
def devW7 : Dev := ⟨⟨5, 20, 9⟩, fun _ => 0, []⟩

/-- Witness for C7: the START theorem applied to a one-command batch on a
mid-stream ring. -/
theorem cdevIOCtl_start_witness :
    fetchW7 0 = some ⟨OP_SD, 3, 4⟩ ∧
    ((cdevIOCtl 11 fetchW7 putAll 1 devW7).ret = 0 ∧
     (cdevIOCtl 11 fetchW7 putAll 1 devW7).dev.ring.numAvailable = 0 ∧
     (cdevIOCtl 11 fetchW7 putAll 1 devW7).dev.ring.outIndex = 0 ∧
     (cdevIOCtl 11 fetchW7 putAll 1 devW7).dev.ring.numSubmitted = 1 ∧
     (cdevIOCtl 11 fetchW7 putAll 1 devW7).dev.subLog =
       devW7.subLog ++ [⟨11, BUF_SIZE / 128⟩]) :=
  ⟨rfl, cdevIOCtl_start 11 fetchW7 putAll devW7 3 4 rfl⟩

/-! ### C8: unknown op-codes -/

/-- C8: whenever the command loop reaches a command whose op-code is none
of OP_RD, OP_WR, OP_SD — whatever has already been executed and however
many commands remain — the batch fails with -EFAULT and nothing further
changes: the write-back list and the device state (ring, registers,
submission log) are returned exactly as they were when the command was
reached.  Instantiated at n = 0, i = 0, acc = [], this is the
single-command batch with no side effect at all. -/
theorem execCmds_unknown_op (b : Nat) (fetch : Nat → Option Cmd) (putOk : Nat → Bool)
    (n i : Nat) (acc : List (Nat × Nat)) (d : Dev) (c : Cmd)
    (hf : fetch i = some c) (hrd : c.op ≠ OP_RD) (hwr : c.op ≠ OP_WR) (hsd : c.op ≠ OP_SD) :
    execCmds b fetch putOk (n + 1) i acc d = ⟨-14, acc, d⟩ :=
  execCmds_stops_at_bad_op b fetch putOk n i acc d c hf hrd hwr hsd

/-- Concrete command array for the C8 witness: spec scenario S5, the
single command op = 99, reg = 0, val = 0. -/
def fetchW8 : Nat → Option Cmd := fun _ => some ⟨99, 0, 0⟩

/-- Concrete device state for the C8 witness. -/
def devW8 : Dev := ⟨⟨2, 30, 4⟩, fun _ => 0, []⟩

/-- Witness for C8: a single-command batch with op-code 99 returns
-EFAULT and has no side effect on the device state. -/
theorem execCmds_unknown_op_witness :
    fetchW8 0 = some ⟨99, 0, 0⟩ ∧
    (Cmd.mk 99 0 0).op ≠ OP_RD ∧
    (Cmd.mk 99 0 0).op ≠ OP_WR ∧
    (Cmd.mk 99 0 0).op ≠ OP_SD ∧
    execCmds 0 fetchW8 putAll 1 0 [] devW8 = ⟨-14, [], devW8⟩ :=
  ⟨rfl, by decide, by decide, by decide,
    execCmds_unknown_op 0 fetchW8 putAll 0 0 [] devW8 ⟨99, 0, 0⟩ rfl
      (by decide) (by decide) (by decide)⟩

/-! ### C9: register write followed by read-back -/

/-- C9: for every register index and 32-bit value, a batch of WRITE(r, v)
followed by READ(r) returns 0 and stores v into the val field of command
slot 1 of the caller array; both commands address the BAR0 word at offset
(1 + 2 r), so the read-back sees exactly the written value. -/
theorem cdevIOCtl_write_then_read (b : Nat) (fetch : Nat → Option Cmd) (putOk : Nat → Bool)
    (d : Dev) (r v w : Nat) (hv : v < U32)
    (h0 : fetch 0 = some ⟨OP_WR, r, v⟩) (h1 : fetch 1 = some ⟨OP_RD, r, w⟩)
    (hp : putOk 1 = true) :
    (cdevIOCtl b fetch putOk 2 d).ret = 0 ∧
    (cdevIOCtl b fetch putOk 2 d).userVal = [(1, v)] ∧
    (cdevIOCtl b fetch putOk 2 d).dev.regs ((1 + r * 2) % U32) = v := by
  have hstep1 : cdevIOCtl b fetch putOk 2 d =
      execCmds b fetch putOk 1 1 [] { d with regs := wr d.regs ((1 + r * 2) % U32) v } := by
    simp only [cdevIOCtl, execCmds]
    rw [h0]
    rfl
  have hstep2 : execCmds b fetch putOk 1 1 []
        { d with regs := wr d.regs ((1 + r * 2) % U32) v } =
      ⟨0, [(1, wr d.regs ((1 + r * 2) % U32) v ((1 + r * 2) % U32))],
        { d with regs := wr d.regs ((1 + r * 2) % U32) v }⟩ := by
    simp only [execCmds]
    rw [h1, hp]
    rfl
  rw [hstep1, hstep2]
  refine ⟨rfl, ?_, ?_⟩
  · show [(1, wr d.regs ((1 + r * 2) % U32) v ((1 + r * 2) % U32))] = [(1, v)]
    rw [wr_same, Nat.mod_eq_of_lt hv]
  · show wr d.regs ((1 + r * 2) % U32) v ((1 + r * 2) % U32) = v
    rw [wr_same, Nat.mod_eq_of_lt hv]

/-- Concrete command array for the C9 witness: spec scenario S3,
WRITE(5, 0x1234) then READ(5). -/
def fetchW9 : Nat → Option Cmd := fun i =>
  if i = 0 then some ⟨OP_WR, 5, 4660⟩ else some ⟨OP_RD, 5, 0⟩

/-- Concrete device state for the C9 witness. -/
def devW9 : Dev := ⟨⟨0, 0, 0⟩, fun _ => 0, []⟩

/-- Witness for C9: after WRITE(5, 0x1234); READ(5), the caller sees
cmds[1].val = 0x1234 = 4660. -/
theorem cdevIOCtl_write_then_read_witness :
    4660 < U32 ∧
    fetchW9 0 = some ⟨OP_WR, 5, 4660⟩ ∧
    fetchW9 1 = some ⟨OP_RD, 5, 0⟩ ∧
    putAll 1 = true ∧
    ((cdevIOCtl 0 fetchW9 putAll 2 devW9).ret = 0 ∧
     (cdevIOCtl 0 fetchW9 putAll 2 devW9).userVal = [(1, 4660)] ∧
     (cdevIOCtl 0 fetchW9 putAll 2 devW9).dev.regs ((1 + 5 * 2) % U32) = 4660) :=
  ⟨by decide, rfl, rfl, rfl,
    cdevIOCtl_write_then_read 0 fetchW9 putAll devW9 5 4660 0 (by decide) rfl rfl rfl⟩

/-! ### C10: a batch that fails partway keeps its earlier effects -/

/-- The command loop is sequential: if the first p commands all succeed
(the loop over fuel p returns 0), running with more fuel continues from
the write-back list and device state the first p commands produced. -/
theorem execCmds_split (b : Nat) (fetch : Nat → Option Cmd) (putOk : Nat → Bool) :
    ∀ (p n i : Nat) (acc : List (Nat × Nat)) (d : Dev),
      (execCmds b fetch putOk p i acc d).ret = 0 →
      execCmds b fetch putOk (p + n) i acc d =
        execCmds b fetch putOk n (i + p)
          (execCmds b fetch putOk p i acc d).userVal
          (execCmds b fetch putOk p i acc d).dev := by
  intro p
  induction p with
  | zero =>
    intro n i acc d hret
    simp only [Nat.zero_add, Nat.add_zero, execCmds]
  | succ p ih =>
    intro n i acc d hret
    have harr : p + 1 + n = (p + n) + 1 := by omega
    have hidx : i + 1 + p = i + (p + 1) := by omega
    rw [harr]
    cases hfi : fetch i with
    | none =>
      exfalso
      have hP : execCmds b fetch putOk (p + 1) i acc d = ⟨-14, acc, d⟩ := by
        simp only [execCmds, hfi]
      rw [hP] at hret
      exact absurd (show (-14 : Int) = 0 from hret) (by decide)
    | some kc =>
      by_cases hrd : kc.op = OP_RD
      · cases hpi : putOk i with
        | false =>
          exfalso
          have hP : execCmds b fetch putOk (p + 1) i acc d = ⟨-14, acc, d⟩ := by
            simp only [execCmds, hfi]
            rw [if_pos hrd, hpi, if_neg (by decide : ¬ (false = true))]
          rw [hP] at hret
          exact absurd (show (-14 : Int) = 0 from hret) (by decide)
        | true =>
          have hL : execCmds b fetch putOk ((p + n) + 1) i acc d =
              execCmds b fetch putOk (p + n) (i + 1)
                (acc ++ [(i, d.regs ((1 + kc.reg * 2) % U32))]) d := by
            simp only [execCmds, hfi]
            rw [if_pos hrd, hpi, if_pos rfl]
          have hP : execCmds b fetch putOk (p + 1) i acc d =
              execCmds b fetch putOk p (i + 1)
                (acc ++ [(i, d.regs ((1 + kc.reg * 2) % U32))]) d := by
            simp only [execCmds, hfi]
            rw [if_pos hrd, hpi, if_pos rfl]
          rw [hP] at hret
          rw [hL, hP, ih n (i + 1) (acc ++ [(i, d.regs ((1 + kc.reg * 2) % U32))]) d hret,
            hidx]
      · by_cases hwr : kc.op = OP_WR
        · have hL : execCmds b fetch putOk ((p + n) + 1) i acc d =
              execCmds b fetch putOk (p + n) (i + 1) acc
                { d with regs := wr d.regs ((1 + kc.reg * 2) % U32) kc.val } := by
            simp only [execCmds, hfi]
            rw [if_neg hrd, if_pos hwr]
          have hP : execCmds b fetch putOk (p + 1) i acc d =
              execCmds b fetch putOk p (i + 1) acc
                { d with regs := wr d.regs ((1 + kc.reg * 2) % U32) kc.val } := by
            simp only [execCmds, hfi]
            rw [if_neg hrd, if_pos hwr]
          rw [hP] at hret
          rw [hL, hP, ih n (i + 1) acc
            { d with regs := wr d.regs ((1 + kc.reg * 2) % U32) kc.val } hret, hidx]
        · by_cases hsd : kc.op = OP_SD
          · have hL : execCmds b fetch putOk ((p + n) + 1) i acc d =
                execCmds b fetch putOk (p + n) (i + 1) acc
                  (submitDmaReq { d with ring := ⟨0, 1, 0⟩ } b (BUF_SIZE / 128)) := by
              simp only [execCmds, hfi]
              rw [if_neg hrd, if_neg hwr, if_pos hsd]
            have hP : execCmds b fetch putOk (p + 1) i acc d =
                execCmds b fetch putOk p (i + 1) acc
                  (submitDmaReq { d with ring := ⟨0, 1, 0⟩ } b (BUF_SIZE / 128)) := by
              simp only [execCmds, hfi]
              rw [if_neg hrd, if_neg hwr, if_pos hsd]
            rw [hP] at hret
            rw [hL, hP, ih n (i + 1) acc
              (submitDmaReq { d with ring := ⟨0, 1, 0⟩ } b (BUF_SIZE / 128)) hret, hidx]
          · exfalso
            have hP : execCmds b fetch putOk (p + 1) i acc d = ⟨-14, acc, d⟩ := by
              simp only [execCmds, hfi]
              rw [if_neg hrd, if_neg hwr, if_neg hsd]
            rw [hP] at hret
            exact absurd (show (-14 : Int) = 0 from hret) (by decide)

/-- C10: for every command batch that fails partway through — the first p
commands succeed and command p then faults on its user-memory copy (fetch
fault, or a READ whose write-back faults) or carries an unknown op-code —
the loop returns -EFAULT together with exactly the write-back list and
device state produced by the first p commands: earlier register WRITEs,
completed READ write-backs and a prior START (ring reset plus slot-0
submission) all persist.  The batch is not atomic on error. -/
theorem execCmds_failure_keeps_earlier_effects (b : Nat) (fetch : Nat → Option Cmd)
    (putOk : Nat → Bool) (p n i : Nat) (acc : List (Nat × Nat)) (d : Dev)
    (hpre : (execCmds b fetch putOk p i acc d).ret = 0)
    (hfail : fetch (i + p) = none ∨
      (∃ c, fetch (i + p) = some c ∧ c.op = OP_RD ∧ putOk (i + p) = false) ∨
      (∃ c, fetch (i + p) = some c ∧ c.op ≠ OP_RD ∧ c.op ≠ OP_WR ∧ c.op ≠ OP_SD)) :
    execCmds b fetch putOk (p + (n + 1)) i acc d =
      ⟨-14, (execCmds b fetch putOk p i acc d).userVal,
        (execCmds b fetch putOk p i acc d).dev⟩ := by
  rw [execCmds_split b fetch putOk p (n + 1) i acc d hpre]
  rcases hfail with hnone | ⟨c, hc, hop, hput⟩ | ⟨c, hc, h1, h2, h3⟩
  · simp only [execCmds, hnone]
  · simp only [execCmds, hc]
    rw [if_pos hop, hput, if_neg (by decide : ¬ (false = true))]
  · exact execCmds_stops_at_bad_op b fetch putOk n (i + p) _ _ c hc h1 h2 h3

/-- Concrete command array for the C10 witness: WRITE(5, 7) followed by
the unknown op-code 99. -/
def fetchW10 : Nat → Option Cmd := fun i =>
  if i = 0 then some ⟨OP_WR, 5, 7⟩ else some ⟨99, 0, 0⟩

/-- Concrete device state for the C10 witness. -/
def devW10 : Dev := ⟨⟨0, 0, 0⟩, fun _ => 0, []⟩

/-- Witness for C10: a two-command batch whose second command has op-code
99 fails with -EFAULT while the register write of the first command
persists in the returned device state. -/
theorem execCmds_failure_keeps_earlier_effects_witness :
    (execCmds 0 fetchW10 putAll 1 0 [] devW10).ret = 0 ∧
    (∃ c, fetchW10 (0 + 1) = some c ∧ c.op ≠ OP_RD ∧ c.op ≠ OP_WR ∧ c.op ≠ OP_SD) ∧
    execCmds 0 fetchW10 putAll (1 + (0 + 1)) 0 [] devW10 =
      ⟨-14, (execCmds 0 fetchW10 putAll 1 0 [] devW10).userVal,
        (execCmds 0 fetchW10 putAll 1 0 [] devW10).dev⟩ :=
  ⟨by decide,
    ⟨⟨99, 0, 0⟩, rfl, by decide, by decide, by decide⟩,
    execCmds_failure_keeps_earlier_effects 0 fetchW10 putAll 1 0 0 [] devW10 (by decide)
      (Or.inr (Or.inr ⟨⟨99, 0, 0⟩, rfl, by decide, by decide, by decide⟩))⟩

end Fpgalink
